import Mathlib

/-!
Verification of the AegisNet risk-scoring and cascade-simulation engine.

This file gives a shallow embedding, over the rationals, of the core logic
of the repository:

* `processCsvData` / `calculateStableRisk` from `src/utils/dataProcessor.ts`
  (per-institution risk score, systemic risk index, network aggregation,
  exposure-edge construction), and
* `runSimulation` from the `SystemicSimulator` component (the Furfine-style
  default cascade).

JavaScript numbers are modelled as rationals; a field that may be absent or
non-numeric (`undefined` / `NaN`, both falsy) is modelled as `Option ℚ`, and
the JavaScript `x || d` fallback idiom is `jsOr`.  `Math.random()` draws are
modelled as explicit parameters.  Mutation of the per-run simulation state is
modelled by explicit state passing; the JavaScript `Set` insertion-ordered
semantics of the failed set is modelled by a duplicate-free list.
-/

namespace AegisNet

/-- JavaScript `x || d` on an optional numeric field: an absent (or `NaN`,
modelled as `none`) or zero value falls back to the default `d`. -/
def jsOr (x : Option ℚ) (d : ℚ) : ℚ :=
  match x with
  | none => d
  | some v => if v = 0 then d else v

/-- One row of the metrics table (`InstitutionMetrics` in `types.ts`); numeric
fields are optional to model missing / non-numeric CSV cells. -/
structure InstitutionMetrics where
  date : String
  institution_id : String
  total_assets : Option ℚ
  leverage_ratio : Option ℚ
  liquidity_ratio : Option ℚ
  roe : Option ℚ
  cds_spread : Option ℚ
deriving Repr, DecidableEq

/-- One row of the exposure table (`ExposureNetwork` in `types.ts`). -/
structure ExposureNetwork where
  date : String
  creditor_id : String
  debtor_id : String
  exposure_amount : Option ℚ
  collateral_value : Option ℚ
deriving Repr, DecidableEq

/-- An exposure edge as built by `processCsvData` and consumed by the
simulator (`Exposure` in `types.ts`): `source` is the creditor, `target` the
debtor. -/
structure Exposure where
  source : String
  target : String
  amount : Option ℚ
  collateral : Option ℚ
deriving Repr, DecidableEq

/-! ### Per-institution risk score (`processCsvData`, node construction)

The four capped component scores and their sum, exactly as in the source:
`Math.min(lev / 40, 1) * 40`, `Math.max(0, 1.2 - liq) * 30`,
`Math.min(cds / 1000, 1) * 20`, `Math.min(vix / 60, 1) * 10`,
`riskScore = Math.min(100, ...)`.  The source's final `isNaN` guard has no
effect in the rational model (no `NaN` exists). -/

/-- `Math.min(lev / 40, 1) * 40` — the leverage component. -/
def leverageScore (lev : ℚ) : ℚ := min (lev / 40) 1 * 40

/-- `Math.max(0, (1.2 - liq)) * 30` — the liquidity component. -/
def liquidityScore (liq : ℚ) : ℚ := max 0 (12/10 - liq) * 30

/-- `Math.min(cds / 1000, 1) * 20` — the CDS-spread component. -/
def cdsScore (cds : ℚ) : ℚ := min (cds / 1000) 1 * 20

/-- `Math.min(vix / 60, 1) * 10` — the market-volatility component. -/
def vixScore (vix : ℚ) : ℚ := min (vix / 60) 1 * 10

/-- `Math.min(100, leverageScore + liquidityScore + cdsScore + vixScore)`. -/
def riskScoreOf (lev liq cds vix : ℚ) : ℚ :=
  min 100 (leverageScore lev + liquidityScore liq + cdsScore cds + vixScore vix)

/-- The risk score `processCsvData` assigns to a metrics row `m`, given the
market snapshot's `vix_index` field: the inputs go through the source's
fallbacks `m.leverage_ratio || 15`, `m.liquidity_ratio || 1`,
`m.cds_spread || 100`, `marketLatest.vix_index || 25`. -/
def riskScore (m : InstitutionMetrics) (marketVix : Option ℚ) : ℚ :=
  riskScoreOf (jsOr m.leverage_ratio 15) (jsOr m.liquidity_ratio 1)
    (jsOr m.cds_spread 100) (jsOr marketVix 25)

/-! ### Systemic risk index (`calculateStableRisk`) -/

/-- `calculateStableRisk` from `dataProcessor.ts`.  The `Math.random()` jitter
draw `Math.random() * 0.0024 - 0.0012` is the explicit parameter `jitter`;
the empty-set early return is the constant `0.62`.  (The `catch` branch,
returning the constant `0.6245`, is unreachable in this pure model.) -/
def calculateStableRisk (currentMetrics : List InstitutionMetrics)
    (marketVix : Option ℚ) (jitter : ℚ) : ℚ :=
  if currentMetrics.length = 0 then 62/100
  else
    let n : ℚ := currentMetrics.length
    let avgLeverage :=
      (currentMetrics.foldl (fun acc curr => acc + jsOr curr.leverage_ratio 0) 0) / n
    let leverageIdx := min (avgLeverage / 30) 1
    let avgCds :=
      (currentMetrics.foldl (fun acc curr => acc + jsOr curr.cds_spread 0) 0) / n
    let cdsIdx := min (avgCds / 600) 1
    let vixVal := jsOr marketVix 25
    let vixIdx := min (vixVal / 50) 1
    let baseRiskIndex := leverageIdx * (4/10) + cdsIdx * (4/10) + vixIdx * (2/10)
    max 0 (min 1 (baseRiskIndex + jitter))

/-- The constant returned by the `catch` branch of `calculateStableRisk`. -/
def catchFallback : ℚ := 6245/10000

/-! ### Network aggregation (`processCsvData`, `nodeVolumes` /
`connectionCounts` / `centrality`)

The source iterates over `network`, and for each edge dated at the reference
date adds `exposure_amount || 0` to both endpoints' volume accumulators and
increments both endpoints' connection counters.  `centrality` divides an
institution's counter by `Math.max(1, Object.keys(connectionCounts).length)`;
the key set of the record is exactly the set of endpoints of reference-date
edges. -/

/-- The exposure rows kept by the `edge.date === latestDate` filter. -/
def refEdges (network : List ExposureNetwork) (latestDate : String) :
    List ExposureNetwork :=
  network.filter (fun e => e.date = latestDate)

/-- `connectionCounts[id]` after the aggregation loop: each reference-date
edge increments the counter of its debtor and of its creditor (a self-loop
hits the same counter twice). -/
def connCount (network : List ExposureNetwork) (latestDate : String)
    (id : String) : ℕ :=
  (refEdges network latestDate).foldl
    (fun acc e =>
      (acc + (if e.debtor_id = id then 1 else 0)) +
        (if e.creditor_id = id then 1 else 0)) 0

/-- `nodeVolumes[id]` after the aggregation loop (with the `|| 0` amount
fallback); a self-loop adds its amount twice. -/
def nodeVolume (network : List ExposureNetwork) (latestDate : String)
    (id : String) : ℚ :=
  (refEdges network latestDate).foldl
    (fun acc e =>
      (acc + (if e.debtor_id = id then jsOr e.exposure_amount 0 else 0)) +
        (if e.creditor_id = id then jsOr e.exposure_amount 0 else 0)) 0

/-- `Object.keys(connectionCounts)` as a finite set: the endpoints of the
reference-date edges. -/
def connKeys (network : List ExposureNetwork) (latestDate : String) :
    Finset String :=
  ((refEdges network latestDate).flatMap
    (fun e => [e.debtor_id, e.creditor_id])).toFinset

/-- `(connectionCounts[id] || 0) / Math.max(1, Object.keys(...).length)` —
the centrality assigned to institution `id` by `processCsvData`. -/
def centrality (network : List ExposureNetwork) (latestDate : String)
    (id : String) : ℚ :=
  (connCount network latestDate id : ℚ) /
    max 1 ((connKeys network latestDate).card : ℚ)

/-- The `links` array built by `processCsvData`: the reference-date rows,
each mapped to an `Exposure` with `source := creditor_id`,
`target := debtor_id` and the `|| 0` fallbacks applied.  No self-loop filter
appears in the source. -/
def links (network : List ExposureNetwork) (latestDate : String) :
    List Exposure :=
  (network.filter (fun e => e.date = latestDate)).map
    (fun e =>
      { source := e.creditor_id
        target := e.debtor_id
        amount := some (jsOr e.exposure_amount 0)
        collateral := some (jsOr e.collateral_value 0) })

/-! ### Cascade simulator (`SystemicSimulator.runSimulation`)

The source (Furfine algorithm): starting from `startId`, rounds propagate
losses `amount * shock` from each newly failed debtor to its still-solvent
creditors; a creditor whose equity drops to `≤ 0` fails in the current round.
The `while (currentFailed.length > 0 && depth < 20)` loop is modelled by the
fuel `20 - depth`. -/

/-- The fields of an `Institution` record the simulator reads. -/
structure SimInst where
  institution_id : String
  total_assets : Option ℚ
  leverage_ratio : Option ℚ
deriving Repr, DecidableEq

/-- One entry of the per-run `state` array:
`{ id, equity: (total_assets || 100) / (leverage_ratio || 15), assets }`. -/
structure SimState where
  id : String
  equity : ℚ
  assets : ℚ
deriving Repr, DecidableEq

/-- The initial `state` array built from the institutions list. -/
def initState (institutions : List SimInst) : List SimState :=
  institutions.map fun i =>
    { id := i.institution_id
      equity := jsOr i.total_assets 100 / jsOr i.leverage_ratio 15
      assets := jsOr i.total_assets 0 }

/-- `state.find(s => s.id === link.source)`. -/
def findState (st : List SimState) (id : String) : Option SimState :=
  st.find? (fun s => s.id = id)

/-- `creditor.equity -= loss` through the alias returned by `find`: only the
first state entry with the given id is updated. -/
def updateFirst (st : List SimState) (id : String) (loss : ℚ) : List SimState :=
  match st with
  | [] => []
  | s :: rest =>
    if s.id = id then { s with equity := s.equity - loss } :: rest
    else s :: updateFirst rest id loss

/-- The mutable locals of one round of the cascade loop: the failed set (an
insertion-ordered, duplicate-free list modelling the JavaScript `Set`), the
`nextFailures` array, and the state array. -/
structure RoundAcc where
  failed : List String
  nextFailures : List String
  state : List SimState
deriving Repr, DecidableEq

/-- The body of the inner `affectedLinks.forEach(link => ...)`: skip already
failed creditors, subtract `(link.amount || 0) * shock` from the creditor's
equity if it has a state entry, and record a failure when the updated equity
is `≤ 0`. -/
def processLink (shock : ℚ) (acc : RoundAcc) (link : Exposure) : RoundAcc :=
  if acc.failed.contains link.source then acc
  else
    match findState acc.state link.source with
    | none => acc
    | some creditor =>
      let loss := jsOr link.amount 0 * shock
      let state' := updateFirst acc.state link.source loss
      if creditor.equity - loss ≤ 0 then
        { failed := acc.failed ++ [link.source]
          nextFailures := acc.nextFailures ++ [link.source]
          state := state' }
      else
        { acc with state := state' }

/-- `currentFailed.forEach(fId => ...)` body: fold the link processor over
`exposures.filter(e => e.target === fId)`. -/
def processFailed (exposures : List Exposure) (shock : ℚ)
    (acc : RoundAcc) (fId : String) : RoundAcc :=
  (exposures.filter (fun e => e.target = fId)).foldl (processLink shock) acc

/-- One iteration of the while loop: process every institution that failed in
the previous round, starting from an empty `nextFailures`. -/
def runRound (exposures : List Exposure) (shock : ℚ) (failed : List String)
    (state : List SimState) (currentFailed : List String) : RoundAcc :=
  currentFailed.foldl (processFailed exposures shock)
    { failed := failed, nextFailures := [], state := state }

/-- Result of the cascade loop: final failed list, the per-round failure
lists, and the depth counter. -/
structure LoopResult where
  failed : List String
  rounds : List (List String)
  depth : ℕ
deriving Repr, DecidableEq

/-- The `while (currentFailed.length > 0 && depth < 20)` loop; `fuel` is
`20 - depth`, so the `depth < 20` conjunct is the fuel running out.  A round
with no new failures breaks out of the loop; otherwise the round's failures
are appended to `rounds` and become the next `currentFailed`. -/
def simLoop (exposures : List Exposure) (shock : ℚ) :
    ℕ → List String → List SimState → List String → List (List String) → ℕ →
    LoopResult
  | 0, failed, _, _, rounds, depth => ⟨failed, rounds, depth⟩
  | fuel + 1, failed, state, currentFailed, rounds, depth =>
    if currentFailed.isEmpty then ⟨failed, rounds, depth⟩
    else
      let acc := runRound exposures shock failed state currentFailed
      if acc.nextFailures.isEmpty then ⟨acc.failed, rounds, depth⟩
      else
        simLoop exposures shock fuel acc.failed acc.state acc.nextFailures
          (rounds ++ [acc.nextFailures]) (depth + 1)

/-- The `SimResult` the simulator stores. -/
structure SimResult where
  failedNodes : List String
  rounds : List (List String)
  totalLoss : ℚ
  depth : ℕ
deriving Repr, DecidableEq

/-- `runSimulation(startId, shock)` from the `SystemicSimulator` component.
The only guard in the source is `if (!startId) return;`, modelled by `none`
on the empty string; otherwise the cascade always produces an ordinary
result.  `totalLoss` sums `institutions.find(...)?.total_assets || 0` over
the failed set. -/
def runSimulation (institutions : List SimInst) (exposures : List Exposure)
    (startId : String) (shock : ℚ) : Option SimResult :=
  if startId = "" then none
  else
    let res := simLoop exposures shock 20 [startId] (initState institutions)
      [startId] [[startId]] 0
    let totalLoss := res.failed.foldl
      (fun sum id =>
        sum + (match institutions.find? (fun i => i.institution_id = id) with
               | some inst => jsOr inst.total_assets 0
               | none => 0)) 0
    some
      { failedNodes := res.failed
        rounds := res.rounds
        totalLoss := totalLoss
        depth := res.depth }

/-- The joint invariant preserved by one link processing step: the failed
list extends the round's initial failed list by exactly `nextFailures`, stays
duplicate-free, the state ids are unchanged, and every failed id was already
failed or has a state entry. -/
def LinkInv (f0 : List String) (ids : List String) (acc : RoundAcc) : Prop :=
  acc.failed = f0 ++ acc.nextFailures ∧
    acc.failed.Nodup ∧
    acc.state.map SimState.id = ids ∧
    (∀ x ∈ acc.failed, x ∈ f0 ∨ x ∈ ids)

/-! ## Helper lemmas -/

theorem foldl_invariant {α β : Type} (P : β → Prop) (f : β → α → β)
    (h : ∀ b a, P b → P (f b a)) :
    ∀ (l : List α) (b : β), P b → P (l.foldl f b) := by
  intro l
  induction l with
  | nil => intro b hb; exact hb
  | cons x xs ih => intro b hb; exact ih (f b x) (h b x hb)

theorem conn_foldl_eq (i : String) :
    ∀ (l : List ExposureNetwork) (n : ℕ),
      l.foldl (fun acc e =>
        (acc + (if e.debtor_id = i then 1 else 0)) +
          (if e.creditor_id = i then 1 else 0)) n =
      n + (l.map (fun e =>
        (if e.debtor_id = i then 1 else 0) +
          (if e.creditor_id = i then 1 else 0))).sum := by
  intro l
  induction l with
  | nil => intro n; simp
  | cons a t ih =>
    intro n
    simp only [List.foldl_cons, List.map_cons, List.sum_cons]
    rw [ih]
    omega

theorem vol_foldl_eq (i : String) :
    ∀ (l : List ExposureNetwork) (q : ℚ),
      l.foldl (fun acc e =>
        (acc + (if e.debtor_id = i then jsOr e.exposure_amount 0 else 0)) +
          (if e.creditor_id = i then jsOr e.exposure_amount 0 else 0)) q =
      q + (l.map (fun e =>
        (if e.debtor_id = i then jsOr e.exposure_amount 0 else 0) +
          (if e.creditor_id = i then jsOr e.exposure_amount 0 else 0))).sum := by
  intro l
  induction l with
  | nil => intro q; simp
  | cons a t ih =>
    intro q
    simp only [List.foldl_cons, List.map_cons, List.sum_cons]
    rw [ih]
    ring

theorem leverageScore_le (lev : ℚ) : leverageScore lev ≤ 40 := by
  unfold leverageScore
  calc min (lev / 40) 1 * 40 ≤ 1 * 40 :=
        mul_le_mul_of_nonneg_right (min_le_right _ _) (by norm_num)
    _ = 40 := by norm_num

theorem leverageScore_nonneg {lev : ℚ} (h : 0 ≤ lev) : 0 ≤ leverageScore lev := by
  unfold leverageScore
  exact mul_nonneg (le_min (div_nonneg h (by norm_num)) zero_le_one) (by norm_num)

theorem liquidityScore_nonneg (liq : ℚ) : 0 ≤ liquidityScore liq := by
  unfold liquidityScore
  exact mul_nonneg (le_max_left _ _) (by norm_num)

theorem liquidityScore_le {liq : ℚ} (h : 0 ≤ liq) : liquidityScore liq ≤ 36 := by
  unfold liquidityScore
  have h1 : max 0 (12/10 - liq) ≤ 12/10 :=
    max_le (by norm_num) (by linarith)
  calc max 0 (12/10 - liq) * 30 ≤ 12/10 * 30 :=
        mul_le_mul_of_nonneg_right h1 (by norm_num)
    _ = 36 := by norm_num

theorem cdsScore_le (cds : ℚ) : cdsScore cds ≤ 20 := by
  unfold cdsScore
  calc min (cds / 1000) 1 * 20 ≤ 1 * 20 :=
        mul_le_mul_of_nonneg_right (min_le_right _ _) (by norm_num)
    _ = 20 := by norm_num

theorem cdsScore_nonneg {cds : ℚ} (h : 0 ≤ cds) : 0 ≤ cdsScore cds := by
  unfold cdsScore
  exact mul_nonneg (le_min (div_nonneg h (by norm_num)) zero_le_one) (by norm_num)

theorem vixScore_le (vix : ℚ) : vixScore vix ≤ 10 := by
  unfold vixScore
  calc min (vix / 60) 1 * 10 ≤ 1 * 10 :=
        mul_le_mul_of_nonneg_right (min_le_right _ _) (by norm_num)
    _ = 10 := by norm_num

theorem vixScore_nonneg {vix : ℚ} (h : 0 ≤ vix) : 0 ≤ vixScore vix := by
  unfold vixScore
  exact mul_nonneg (le_min (div_nonneg h (by norm_num)) zero_le_one) (by norm_num)

/-! ## Claim theorems -/

/-- C4 (counterexample).  The claim that the per-institution risk score is
always in `[0, 100]` fails on the code: a row whose leverage ratio is the
extreme value `-1000` (all other fields missing, no market data) gets risk
score `-5927/6 < 0`, because the leverage component `min(lev/40, 1) * 40` is
unbounded below. -/
theorem risk_score_negative_cex :
    riskScore ⟨"2024-01-01", "X", none, some (-1000), none, none, none⟩ none < 0 := by
  norm_num [riskScore, riskScoreOf, leverageScore, liquidityScore, cdsScore,
    vixScore, jsOr]

/-- C4 (amended).  For every metrics row and market snapshot the risk score
is at most `100` (the final `Math.min(100, ...)` caps it unconditionally);
it is additionally at least `0` whenever the effective leverage, CDS and
volatility inputs (after the source's `||`-fallbacks, hence in particular
whenever the raw fields are missing or nonnegative) are nonnegative.  In the
rational model every score is trivially finite. -/
theorem risk_score_bounds (m : InstitutionMetrics) (marketVix : Option ℚ) :
    riskScore m marketVix ≤ 100 ∧
      (0 ≤ jsOr m.leverage_ratio 15 → 0 ≤ jsOr m.cds_spread 100 →
        0 ≤ jsOr marketVix 25 → 0 ≤ riskScore m marketVix) := by
  constructor
  · unfold riskScore riskScoreOf
    exact min_le_left _ _
  · intro hlev hcds hvix
    unfold riskScore riskScoreOf
    apply le_min (by norm_num)
    have h1 := leverageScore_nonneg hlev
    have h2 := liquidityScore_nonneg (jsOr m.liquidity_ratio 1)
    have h3 := cdsScore_nonneg hcds
    have h4 := vixScore_nonneg hvix
    linarith

/-- C4 (witness). -/
theorem risk_score_bounds_witness :
    riskScore ⟨"2024-01-01", "X", some 500, some 20, some (1/2), none, some 150⟩
        (some 30) ≤ 100 ∧
      0 ≤ riskScore ⟨"2024-01-01", "X", some 500, some 20, some (1/2), none, some 150⟩
        (some 30) :=
  ⟨(risk_score_bounds ⟨"2024-01-01", "X", some 500, some 20, some (1/2), none,
      some 150⟩ (some 30)).1,
    (risk_score_bounds ⟨"2024-01-01", "X", some 500, some 20, some (1/2), none,
      some 150⟩ (some 30)).2 (by norm_num [jsOr]) (by norm_num [jsOr])
      (by norm_num [jsOr])⟩

/-- C5 (counterexample).  The claim that the liquidity component never
exceeds its weight `30` fails on the code: a liquidity ratio of `1/10` gives
`max(0, 1.2 - 0.1) * 30 = 33 > 30`. -/
theorem liquidity_component_exceeds_weight_cex :
    30 < liquidityScore (jsOr (some (1/10)) 1) := by
  norm_num [liquidityScore, jsOr]

/-- C5 (amended).  The leverage, CDS and volatility components are bounded by
their fixed weights (`40`, `20`, `10`) for every input, but the liquidity
component can exceed its weight `30`: its bound is `36 = 1.2 × 30`, attained
in the limit of small positive liquidity ratios; for nonnegative effective
liquidity it never exceeds `36`. -/
theorem component_weight_bounds (m : InstitutionMetrics) (marketVix : Option ℚ) :
    leverageScore (jsOr m.leverage_ratio 15) ≤ 40 ∧
      cdsScore (jsOr m.cds_spread 100) ≤ 20 ∧
      vixScore (jsOr marketVix 25) ≤ 10 ∧
      (0 ≤ jsOr m.liquidity_ratio 1 →
        liquidityScore (jsOr m.liquidity_ratio 1) ≤ 36) :=
  ⟨leverageScore_le _, cdsScore_le _, vixScore_le _, fun h => liquidityScore_le h⟩

/-- C5 (witness). -/
theorem component_weight_bounds_witness :
    leverageScore (jsOr (InstitutionMetrics.leverage_ratio
        ⟨"2024-01-01", "X", none, some 22, some (1/2), none, some 80⟩) 15) ≤ 40 ∧
      cdsScore (jsOr (InstitutionMetrics.cds_spread
        ⟨"2024-01-01", "X", none, some 22, some (1/2), none, some 80⟩) 100) ≤ 20 ∧
      vixScore (jsOr (some 40) 25) ≤ 10 ∧
      (0 ≤ jsOr (InstitutionMetrics.liquidity_ratio
          ⟨"2024-01-01", "X", none, some 22, some (1/2), none, some 80⟩) 1 →
        liquidityScore (jsOr (InstitutionMetrics.liquidity_ratio
          ⟨"2024-01-01", "X", none, some 22, some (1/2), none, some 80⟩) 1) ≤ 36) :=
  component_weight_bounds ⟨"2024-01-01", "X", none, some 22, some (1/2), none, some 80⟩
    (some 40)

/-- C6.  The systemic risk index is clamped into `[0, 1]` for every metrics
list, market snapshot and jitter draw (in particular for every jitter of
magnitude at most `0.0012`), and on an empty institution set it equals the
fixed fallback constant `0.62`.  (The source's `catch` branch, unreachable in
the pure model, likewise returns a fixed constant, `0.6245`, rather than
propagating an error.) -/
theorem systemic_index_bounds (currentMetrics : List InstitutionMetrics)
    (marketVix : Option ℚ) (jitter : ℚ) :
    0 ≤ calculateStableRisk currentMetrics marketVix jitter ∧
      calculateStableRisk currentMetrics marketVix jitter ≤ 1 ∧
      (currentMetrics = [] →
        calculateStableRisk currentMetrics marketVix jitter = 62/100) := by
  unfold calculateStableRisk
  by_cases h : currentMetrics.length = 0
  · simp only [h, if_pos rfl]
    norm_num
  · rw [if_neg h]
    refine ⟨le_max_left _ _, max_le (by norm_num) ?_, ?_⟩
    · exact le_trans (min_le_left _ _) (by norm_num)
    · intro he
      exact absurd (by simp [he]) h

/-- C6 (witness). -/
theorem systemic_index_bounds_witness :
    0 ≤ calculateStableRisk [] (some 30) (1/1000) ∧
      calculateStableRisk [] (some 30) (1/1000) ≤ 1 ∧
      ([] = ([] : List InstitutionMetrics) →
        calculateStableRisk [] (some 30) (1/1000) = 62/100) :=
  systemic_index_bounds [] (some 30) (1/1000)

/-- C8 (counterexample).  The claim that self-loop exposure rows are dropped
fails on the code: a reference-date row with `creditor_id = debtor_id = "A"`
and amount `50` is mapped to an output edge with `source = target = "A"`,
and the aggregation loop adds its amount to `"A"`'s volume twice (`100`) and
its connection counter twice (`2`). -/
theorem self_loop_kept_cex :
    links [⟨"2024-01-01", "A", "A", some 50, none⟩] "2024-01-01" =
        [⟨"A", "A", some 50, some 0⟩] ∧
      nodeVolume [⟨"2024-01-01", "A", "A", some 50, none⟩] "2024-01-01" "A" = 100 ∧
      connCount [⟨"2024-01-01", "A", "A", some 50, none⟩] "2024-01-01" "A" = 2 := by
  refine ⟨by decide, ?_, by decide⟩
  norm_num [nodeVolume, refEdges, jsOr]

/-- C8 (amended).  Self-loop exposure rows at the reference date are kept,
not dropped: in any input network, such a row yields an output edge with
`source = target`, and relative to the same input without that row it adds
its amount twice to its institution's volume accumulator and `2` to its
connection counter. -/
theorem self_loop_kept (pre post : List ExposureNetwork) (d : String)
    (r : ExposureNetwork) (hd : r.date = d)
    (hself : r.creditor_id = r.debtor_id) :
    (⟨r.creditor_id, r.debtor_id, some (jsOr r.exposure_amount 0),
        some (jsOr r.collateral_value 0)⟩ : Exposure) ∈
        links (pre ++ r :: post) d ∧
      nodeVolume (pre ++ r :: post) d r.creditor_id =
        nodeVolume (pre ++ post) d r.creditor_id +
          2 * jsOr r.exposure_amount 0 ∧
      connCount (pre ++ r :: post) d r.creditor_id =
        connCount (pre ++ post) d r.creditor_id + 2 := by
  refine ⟨?_, ?_, ?_⟩
  · unfold links
    refine List.mem_map.mpr ⟨r, List.mem_filter.mpr ⟨?_, by simp [hd]⟩, rfl⟩
    exact List.mem_append_right pre (List.mem_cons_self _ _)
  · unfold nodeVolume refEdges
    rw [List.filter_append, List.filter_append, List.filter_cons,
      if_pos (by simp [hd])]
    rw [vol_foldl_eq, vol_foldl_eq]
    simp only [List.map_append, List.sum_append, List.map_cons, List.sum_cons]
    rw [if_pos hself.symm]
    simp only [if_true]
    ring
  · unfold connCount refEdges
    rw [List.filter_append, List.filter_append, List.filter_cons,
      if_pos (by simp [hd])]
    rw [conn_foldl_eq, conn_foldl_eq]
    simp only [List.map_append, List.sum_append, List.map_cons, List.sum_cons]
    rw [if_pos hself.symm]
    simp only [if_true]
    omega

/-- C8 (witness). -/
theorem self_loop_kept_witness :
    (⟨"B", "B", some (jsOr (some 7) 0), some (jsOr (some 1) 0)⟩ : Exposure) ∈
        links ([⟨"2024-02-02", "B", "X", some 3, none⟩] ++
          ⟨"2024-02-02", "B", "B", some 7, some 1⟩ :: []) "2024-02-02" ∧
      nodeVolume ([⟨"2024-02-02", "B", "X", some 3, none⟩] ++
          ⟨"2024-02-02", "B", "B", some 7, some 1⟩ :: []) "2024-02-02" "B" =
        nodeVolume ([⟨"2024-02-02", "B", "X", some 3, none⟩] ++ [])
          "2024-02-02" "B" + 2 * jsOr (some 7) 0 ∧
      connCount ([⟨"2024-02-02", "B", "X", some 3, none⟩] ++
          ⟨"2024-02-02", "B", "B", some 7, some 1⟩ :: []) "2024-02-02" "B" =
        connCount ([⟨"2024-02-02", "B", "X", some 3, none⟩] ++ [])
          "2024-02-02" "B" + 2 :=
  self_loop_kept [⟨"2024-02-02", "B", "X", some 3, none⟩] [] "2024-02-02"
    ⟨"2024-02-02", "B", "B", some 7, some 1⟩ rfl rfl

/-! ## Simulator invariants -/

theorem updateFirst_map_id (st : List SimState) (i : String) (loss : ℚ) :
    (updateFirst st i loss).map SimState.id = st.map SimState.id := by
  induction st with
  | nil => rfl
  | cons s rest ih =>
    unfold updateFirst
    by_cases h : s.id = i
    · simp [h]
    · simp [h, ih]

theorem findState_mem {st : List SimState} {i : String} {c : SimState}
    (h : findState st i = some c) : i ∈ st.map SimState.id := by
  unfold findState at h
  have hc := List.find?_some h
  have hmem := List.mem_of_find?_eq_some h
  simp only [decide_eq_true_eq] at hc
  exact List.mem_map.mpr ⟨c, hmem, hc⟩

theorem processLink_inv (shock : ℚ) (f0 ids : List String)
    (acc : RoundAcc) (link : Exposure) (h : LinkInv f0 ids acc) :
    LinkInv f0 ids (processLink shock acc link) := by
  obtain ⟨h1, h2, h3, h4⟩ := h
  unfold processLink
  split
  · exact ⟨h1, h2, h3, h4⟩
  next hmem =>
    have hnotin : link.source ∉ acc.failed := by simpa using hmem
    split
    · exact ⟨h1, h2, h3, h4⟩
    next creditor hfind =>
      have hsrc : link.source ∈ ids := by
        rw [← h3]; exact findState_mem hfind
      show LinkInv f0 ids
        (if creditor.equity - jsOr link.amount 0 * shock ≤ 0 then
          ⟨acc.failed ++ [link.source], acc.nextFailures ++ [link.source],
            updateFirst acc.state link.source (jsOr link.amount 0 * shock)⟩
         else
          ⟨acc.failed, acc.nextFailures,
            updateFirst acc.state link.source (jsOr link.amount 0 * shock)⟩)
      split
      · refine ⟨?_, ?_, ?_, ?_⟩
        · show acc.failed ++ [link.source] = f0 ++ (acc.nextFailures ++ [link.source])
          rw [h1, List.append_assoc]
        · show (acc.failed ++ [link.source]).Nodup
          rw [← List.concat_eq_append]
          exact List.Nodup.concat hnotin h2
        · show (updateFirst acc.state link.source _).map SimState.id = ids
          rw [updateFirst_map_id]; exact h3
        · intro x hx
          rcases List.mem_append.mp hx with hx | hx
          · exact h4 x hx
          · rcases List.mem_singleton.mp hx with rfl
            exact Or.inr hsrc
      · refine ⟨h1, h2, ?_, h4⟩
        show (updateFirst acc.state link.source _).map SimState.id = ids
        rw [updateFirst_map_id]; exact h3

theorem runRound_inv (exposures : List Exposure) (shock : ℚ)
    (f0 : List String) (st0 : List SimState) (cur : List String)
    (hnd : f0.Nodup) :
    LinkInv f0 (st0.map SimState.id)
      (runRound exposures shock f0 st0 cur) := by
  unfold runRound
  apply foldl_invariant (LinkInv f0 (st0.map SimState.id))
  · intro b fId hb
    unfold processFailed
    apply foldl_invariant (LinkInv f0 (st0.map SimState.id))
    · intro b' link hb'
      exact processLink_inv shock f0 _ b' link hb'
    · exact hb
  · exact ⟨by simp, hnd, rfl, fun x hx => Or.inl hx⟩

/-- The joint invariant of the cascade loop: the final failed list is the
concatenation of the round lists, is duplicate-free, only contains
already-failed ids or ids with a state entry, and the round list grows from
its initial value by at most `fuel` new rounds. -/
theorem simLoop_spec (exposures : List Exposure) (shock : ℚ) (ids : List String) :
    ∀ (fuel : ℕ) (failed : List String) (state : List SimState)
      (currentFailed : List String) (rounds : List (List String)) (depth : ℕ),
      state.map SimState.id = ids →
      failed.Nodup →
      failed = rounds.flatten →
      (simLoop exposures shock fuel failed state currentFailed rounds depth).failed =
          (simLoop exposures shock fuel failed state currentFailed rounds depth).rounds.flatten ∧
        (simLoop exposures shock fuel failed state currentFailed rounds depth).failed.Nodup ∧
        (∀ x ∈ (simLoop exposures shock fuel failed state currentFailed rounds depth).failed,
          x ∈ failed ∨ x ∈ ids) ∧
        (∃ t, (simLoop exposures shock fuel failed state currentFailed rounds depth).rounds =
          rounds ++ t) ∧
        (simLoop exposures shock fuel failed state currentFailed rounds depth).rounds.length ≤
          rounds.length + fuel := by
  intro fuel
  induction fuel with
  | zero =>
    intro failed state currentFailed rounds depth hst hnd hfl
    rw [simLoop]
    exact ⟨hfl, hnd, fun x hx => Or.inl hx, ⟨[], by simp⟩, Nat.le_add_right _ _⟩
  | succ fuel ih =>
    intro failed state currentFailed rounds depth hst hnd hfl
    rw [simLoop]
    by_cases hcur : currentFailed.isEmpty
    · rw [if_pos hcur]
      exact ⟨hfl, hnd, fun x hx => Or.inl hx, ⟨[], by simp⟩, Nat.le_add_right _ _⟩
    · rw [if_neg hcur]
      show _ ∧ _ ∧ _ ∧ _ ∧ _
      obtain ⟨h1, h2, h3, h4⟩ := runRound_inv exposures shock failed state currentFailed hnd
      by_cases hnext : (runRound exposures shock failed state currentFailed).nextFailures.isEmpty
      · rw [if_pos hnext]
        have hemp : (runRound exposures shock failed state currentFailed).nextFailures = [] :=
          List.isEmpty_iff.mp hnext
        have haf : (runRound exposures shock failed state currentFailed).failed = failed := by
          rw [h1, hemp, List.append_nil]
        refine ⟨?_, ?_, ?_, ⟨[], by simp⟩, Nat.le_add_right _ _⟩
        · show (runRound exposures shock failed state currentFailed).failed = rounds.flatten
          rw [haf]; exact hfl
        · show (runRound exposures shock failed state currentFailed).failed.Nodup
          rw [haf]; exact hnd
        · intro x hx
          rw [haf] at hx
          exact Or.inl hx
      · rw [if_neg hnext]
        have hst' : (runRound exposures shock failed state currentFailed).state.map
            SimState.id = ids := by rw [h3, hst]
        have hfl' : (runRound exposures shock failed state currentFailed).failed =
            (rounds ++
              [(runRound exposures shock failed state currentFailed).nextFailures]).flatten := by
          rw [h1, hfl]
          simp
        obtain ⟨g1, g2, g3, g4, g5⟩ := ih
          (runRound exposures shock failed state currentFailed).failed
          (runRound exposures shock failed state currentFailed).state
          (runRound exposures shock failed state currentFailed).nextFailures
          (rounds ++ [(runRound exposures shock failed state currentFailed).nextFailures])
          (depth + 1) hst' h2 hfl'
        refine ⟨g1, g2, ?_, ?_, ?_⟩
        · intro x hx
          rcases g3 x hx with hx' | hx'
          · rcases h4 x hx' with hx'' | hx''
            · exact Or.inl hx''
            · rw [hst] at hx''
              exact Or.inr hx''
          · exact Or.inr hx'
        · obtain ⟨t, ht⟩ := g4
          refine ⟨[(runRound exposures shock failed state currentFailed).nextFailures] ++ t, ?_⟩
          rw [ht, List.append_assoc]
        · refine le_trans g5 ?_
          rw [List.length_append]
          simp
          omega

theorem initState_map_id (institutions : List SimInst) :
    (initState institutions).map SimState.id =
      institutions.map SimInst.institution_id := by
  unfold initState
  rw [List.map_map]
  rfl

theorem updateFirst_pos {st : List SimState} {i : String} {loss : ℚ}
    (hl : loss = 0) (h : ∀ s ∈ st, 0 < s.equity) :
    ∀ s ∈ updateFirst st i loss, 0 < s.equity := by
  subst hl
  induction st with
  | nil => intro s hs; simp [updateFirst] at hs
  | cons a rest ih =>
    intro s hs
    unfold updateFirst at hs
    by_cases hid : a.id = i
    · rw [if_pos hid] at hs
      rcases List.mem_cons.mp hs with rfl | hs'
      · show 0 < a.equity - 0
        rw [sub_zero]
        exact h a (List.mem_cons_self a rest)
      · exact h s (List.mem_cons_of_mem a hs')
    · rw [if_neg hid] at hs
      rcases List.mem_cons.mp hs with rfl | hs'
      · exact h s (List.mem_cons_self _ _)
      · exact ih (fun t ht => h t (List.mem_cons_of_mem a ht)) s hs'

/-- With a zero shock no creditor's equity can drop to `≤ 0`, so a round
starting from an everywhere-positive equity state produces no new failures
and keeps all equities positive. -/
theorem runRound_zero (exposures : List Exposure) (f0 : List String)
    (st0 : List SimState) (cur : List String)
    (hpos : ∀ s ∈ st0, 0 < s.equity) :
    (∀ s ∈ (runRound exposures 0 f0 st0 cur).state, 0 < s.equity) ∧
      (runRound exposures 0 f0 st0 cur).nextFailures = [] := by
  unfold runRound
  apply foldl_invariant
    (fun acc : RoundAcc => (∀ s ∈ acc.state, 0 < s.equity) ∧ acc.nextFailures = [])
  · intro b fId hb
    unfold processFailed
    apply foldl_invariant
      (fun acc : RoundAcc => (∀ s ∈ acc.state, 0 < s.equity) ∧ acc.nextFailures = [])
    · intro b' link hb'
      obtain ⟨hbs, hbn⟩ := hb'
      unfold processLink
      split
      · exact ⟨hbs, hbn⟩
      next hmem =>
        split
        · exact ⟨hbs, hbn⟩
        next creditor hfind =>
          have hc : creditor ∈ b'.state := List.mem_of_find?_eq_some hfind
          have hceq : 0 < creditor.equity := hbs creditor hc
          have hcond : ¬ creditor.equity - jsOr link.amount 0 * 0 ≤ 0 := by
            rw [mul_zero, sub_zero]
            exact not_le.mpr hceq
          show (fun acc : RoundAcc =>
              (∀ s ∈ acc.state, 0 < s.equity) ∧ acc.nextFailures = [])
            (if creditor.equity - jsOr link.amount 0 * 0 ≤ 0 then
              ⟨b'.failed ++ [link.source], b'.nextFailures ++ [link.source],
                updateFirst b'.state link.source (jsOr link.amount 0 * 0)⟩
             else
              ⟨b'.failed, b'.nextFailures,
                updateFirst b'.state link.source (jsOr link.amount 0 * 0)⟩)
          rw [if_neg hcond]
          exact ⟨updateFirst_pos (mul_zero _) hbs, hbn⟩
    · exact hb
  · exact ⟨hpos, rfl⟩

/-- If a round yields no new failures, the loop halts with the failed list
and round list it entered the iteration with. -/
theorem simLoop_halt (exposures : List Exposure) (shock : ℚ) (fuel : ℕ)
    (failed : List String) (state : List SimState) (currentFailed : List String)
    (rounds : List (List String)) (depth : ℕ)
    (hcur : ¬ currentFailed.isEmpty)
    (hnext : (runRound exposures shock failed state currentFailed).nextFailures = []) :
    simLoop exposures shock (fuel + 1) failed state currentFailed rounds depth =
      ⟨(runRound exposures shock failed state currentFailed).failed, rounds, depth⟩ := by
  rw [simLoop, if_neg hcur]
  show (if (runRound exposures shock failed state currentFailed).nextFailures.isEmpty = true
      then (⟨(runRound exposures shock failed state currentFailed).failed, rounds, depth⟩ : LoopResult)
      else simLoop exposures shock fuel
        (runRound exposures shock failed state currentFailed).failed
        (runRound exposures shock failed state currentFailed).state
        (runRound exposures shock failed state currentFailed).nextFailures
        (rounds ++ [(runRound exposures shock failed state currentFailed).nextFailures])
        (depth + 1)) = _
  rw [if_pos (by rw [hnext]; rfl)]

/-- C1.  For every institutions list, exposures list, (nonempty) start id and
LGD fraction, the cascade terminates with at most 21 rounds in total: the
round list has length at most `21 = 1 + 20`, and round 0 is exactly
`[startId]`.  (Termination itself is inherent: `runSimulation` is a total
function, its while loop being bounded by the `depth < 20` cap.) -/
theorem cascade_rounds_le_21 (institutions : List SimInst)
    (exposures : List Exposure) (startId : String) (shock : ℚ)
    (h : startId ≠ "") :
    ∃ r, runSimulation institutions exposures startId shock = some r ∧
      r.rounds.length ≤ 21 ∧ r.rounds.head? = some [startId] := by
  obtain ⟨-, -, -, ⟨t, ht⟩, hlen⟩ := simLoop_spec exposures shock
    ((initState institutions).map SimState.id) 20 [startId]
    (initState institutions) [startId] [[startId]] 0 rfl
    (List.nodup_singleton _) (by simp)
  unfold runSimulation
  rw [if_neg h]
  refine ⟨_, rfl, ?_, ?_⟩
  · show (simLoop exposures shock 20 [startId] (initState institutions)
      [startId] [[startId]] 0).rounds.length ≤ 21
    simpa using hlen
  · show (simLoop exposures shock 20 [startId] (initState institutions)
      [startId] [[startId]] 0).rounds.head? = some [startId]
    rw [ht]
    rfl

/-- C1 (witness). -/
theorem cascade_rounds_le_21_witness :
    ∃ r, runSimulation [⟨"A", some 100, some 10⟩] [] "A" 0 = some r ∧
      r.rounds.length ≤ 21 ∧ r.rounds.head? = some ["A"] :=
  cascade_rounds_le_21 [⟨"A", some 100, some 10⟩] [] "A" 0 (by decide)

/-- C2.  In every run of the cascade, the concatenation of the per-round
failure lists is exactly the final failed list, that list is duplicate-free
(so an institution appears in at most one round's list, is never re-added,
and the failed set grows by exactly each round's new failures), and the
round lists are pairwise disjoint. -/
theorem cascade_rounds_partition (institutions : List SimInst)
    (exposures : List Exposure) (startId : String) (shock : ℚ)
    (h : startId ≠ "") :
    ∃ r, runSimulation institutions exposures startId shock = some r ∧
      r.rounds.flatten = r.failedNodes ∧ r.failedNodes.Nodup ∧
      List.Pairwise List.Disjoint r.rounds := by
  obtain ⟨g1, g2, -, -, -⟩ := simLoop_spec exposures shock
    ((initState institutions).map SimState.id) 20 [startId]
    (initState institutions) [startId] [[startId]] 0 rfl
    (List.nodup_singleton _) (by simp)
  unfold runSimulation
  rw [if_neg h]
  refine ⟨_, rfl, ?_, ?_, ?_⟩
  · exact g1.symm
  · exact g2
  · have hjoin : (simLoop exposures shock 20 [startId] (initState institutions)
        [startId] [[startId]] 0).rounds.flatten.Nodup := by
      rw [← g1]; exact g2
    exact (List.nodup_flatten.mp hjoin).2

/-- C2 (witness). -/
theorem cascade_rounds_partition_witness :
    ∃ r, runSimulation [⟨"A", some 100, some 10⟩, ⟨"B", some 100, some 10⟩]
        [⟨"B", "A", some 60, none⟩] "A" 1 = some r ∧
      r.rounds.flatten = r.failedNodes ∧ r.failedNodes.Nodup ∧
      List.Pairwise List.Disjoint r.rounds :=
  cascade_rounds_partition [⟨"A", some 100, some 10⟩, ⟨"B", some 100, some 10⟩]
    [⟨"B", "A", some 60, none⟩] "A" 1 (by decide)

/-- C3 (counterexample).  The claim that `lgd_fraction = 0` always yields
depth 0 and failed set `{start_id}` fails on the code: an institution with
negative raw `total_assets` starts with negative equity, and the zero loss
propagated to it still triggers the `equity <= 0` check.  Here `B` (assets
`-50`, leverage `10`, so equity `-5`) is a creditor of the start institution
`A`, and fails in round 1 although the shock fraction is `0`. -/
theorem lgd_zero_cex :
    runSimulation [⟨"A", some 100, some 10⟩, ⟨"B", some (-50), some 10⟩]
      [⟨"B", "A", some 0, none⟩] "A" 0 =
      some ⟨["A", "B"], [["A"], ["B"]], 50, 1⟩ := by
  iterate 3 (try simp [runSimulation, simLoop, runRound, processFailed,
    processLink, findState, updateFirst, initState, jsOr]; try norm_num)

/-- C3 (amended).  If every institution's initial equity
`(total_assets || 100) / (leverage_ratio || 15)` is positive — in particular
whenever raw assets and leverage are nonnegative or missing — then the
cascade with `lgd_fraction = 0` halts after round 0 with depth `0` and
failed set exactly `{startId}`. -/
theorem lgd_zero_noop (institutions : List SimInst) (exposures : List Exposure)
    (startId : String) (h : startId ≠ "")
    (hpos : ∀ i ∈ institutions,
      0 < jsOr i.total_assets 100 / jsOr i.leverage_ratio 15) :
    ∃ r, runSimulation institutions exposures startId 0 = some r ∧
      r.depth = 0 ∧ r.failedNodes = [startId] ∧ r.rounds = [[startId]] := by
  have hstate : ∀ s ∈ initState institutions, 0 < s.equity := by
    intro s hs
    obtain ⟨i, hi, rfl⟩ := List.mem_map.mp hs
    exact hpos i hi
  obtain ⟨-, hnext⟩ :=
    runRound_zero exposures [startId] (initState institutions) [startId] hstate
  obtain ⟨h1, -, -, -⟩ := runRound_inv exposures 0 [startId]
    (initState institutions) [startId] (List.nodup_singleton _)
  have hres : simLoop exposures 0 20 [startId] (initState institutions)
      [startId] [[startId]] 0 = ⟨[startId], [[startId]], 0⟩ := by
    have h20 : simLoop exposures 0 (19 + 1) [startId] (initState institutions)
        [startId] [[startId]] 0 =
        ⟨(runRound exposures 0 [startId] (initState institutions) [startId]).failed,
          [[startId]], 0⟩ :=
      simLoop_halt exposures 0 19 [startId] (initState institutions) [startId]
        [[startId]] 0 (by simp) hnext
    rw [show (20 : ℕ) = 19 + 1 from rfl, h20, h1, hnext, List.append_nil]
  unfold runSimulation
  rw [if_neg h, hres]
  exact ⟨_, rfl, rfl, rfl, rfl⟩

/-- C3 (witness). -/
theorem lgd_zero_noop_witness :
    ∃ r, runSimulation [⟨"A", some 100, some 10⟩, ⟨"B", some 200, some 20⟩]
        [⟨"B", "A", some 60, none⟩] "A" 0 = some r ∧
      r.depth = 0 ∧ r.failedNodes = ["A"] ∧ r.rounds = [["A"]] :=
  lgd_zero_noop [⟨"A", some 100, some 10⟩, ⟨"B", some 200, some 20⟩]
    [⟨"B", "A", some 60, none⟩] "A" (by decide)
    (by
      intro i hi
      simp only [List.mem_cons, List.mem_singleton, List.not_mem_nil, or_false] at hi
      rcases hi with rfl | rfl <;> norm_num [jsOr])

/-- C9 (counterexample).  The claim that a `start_id` absent from the
institution set is reported as a precondition violation fails on the code:
the only guard is `if (!startId) return;`, so the unknown id `"GHOST"`
produces an ordinary `SimResult` (failed set `{GHOST}`, depth `0`, loss `0`)
with no error reported. -/
theorem unknown_start_ordinary_result_cex :
    runSimulation [⟨"A", some 100, some 10⟩] [] "GHOST" (1/2) =
      some ⟨["GHOST"], [["GHOST"]], 0, 0⟩ := by
  iterate 3 (try simp [runSimulation, simLoop, runRound, processFailed,
    processLink, findState, updateFirst, initState, jsOr]; try norm_num)

/-- C9 (amended).  Only a falsy (empty-string) start id is rejected, and then
by a silent early return with no result at all; for every nonempty start id
— known or unknown to the institution set — the simulation runs and returns
an ordinary result whose failed set contains the start id. -/
theorem unknown_start_runs (institutions : List SimInst)
    (exposures : List Exposure) (startId : String) (shock : ℚ)
    (h : startId ≠ "")
    (_habs : ∀ i ∈ institutions, i.institution_id ≠ startId) :
    runSimulation institutions exposures "" shock = none ∧
      ∃ r, runSimulation institutions exposures startId shock = some r ∧
        startId ∈ r.failedNodes := by
  constructor
  · unfold runSimulation
    rw [if_pos rfl]
  · obtain ⟨g1, -, -, ⟨t, ht⟩, -⟩ := simLoop_spec exposures shock
      ((initState institutions).map SimState.id) 20 [startId]
      (initState institutions) [startId] [[startId]] 0 rfl
      (List.nodup_singleton _) (by simp)
    unfold runSimulation
    rw [if_neg h]
    refine ⟨_, rfl, ?_⟩
    show startId ∈ (simLoop exposures shock 20 [startId]
      (initState institutions) [startId] [[startId]] 0).failed
    rw [g1, ht]
    simp

/-- C9 (witness). -/
theorem unknown_start_runs_witness :
    runSimulation [⟨"A", some 100, some 10⟩] [] "" (1/2) = none ∧
      ∃ r, runSimulation [⟨"A", some 100, some 10⟩] [] "GHOST" (1/2) = some r ∧
        "GHOST" ∈ r.failedNodes :=
  unknown_start_runs [⟨"A", some 100, some 10⟩] [] "GHOST" (1/2) (by decide)
    (by
      intro i hi
      simp only [List.mem_singleton] at hi
      subst hi
      decide)

/-- C10.  Every id in the final failed set other than the start id is the
`institution_id` of a record in the institutions list: losses are applied
only to creditors found in the per-run state built from the institutions
list, so an id appearing only as an exposure endpoint can never fail. -/
theorem failed_subset_institutions (institutions : List SimInst)
    (exposures : List Exposure) (startId : String) (shock : ℚ) (r : SimResult)
    (hr : runSimulation institutions exposures startId shock = some r) :
    ∀ x ∈ r.failedNodes, x ≠ startId →
      x ∈ institutions.map SimInst.institution_id := by
  by_cases h : startId = ""
  · rw [h] at hr
    unfold runSimulation at hr
    rw [if_pos rfl] at hr
    exact Option.noConfusion hr
  · unfold runSimulation at hr
    rw [if_neg h] at hr
    obtain rfl := Option.some.inj hr
    obtain ⟨-, -, g3, -, -⟩ := simLoop_spec exposures shock
      ((initState institutions).map SimState.id) 20 [startId]
      (initState institutions) [startId] [[startId]] 0 rfl
      (List.nodup_singleton _) (by simp)
    intro x hx hne
    rcases g3 x hx with hx' | hx'
    · exact absurd (List.mem_singleton.mp hx') hne
    · rw [initState_map_id] at hx'
      exact hx'

/-- C10 (witness). -/
theorem failed_subset_institutions_witness :
    "B" ∈ List.map SimInst.institution_id
      [⟨"A", some 100, some 10⟩, ⟨"B", some 100, some 10⟩] :=
  failed_subset_institutions
    [⟨"A", some 100, some 10⟩, ⟨"B", some 100, some 10⟩]
    [⟨"B", "A", some 60, none⟩] "A" 1 ⟨["A", "B"], [["A"], ["B"]], 200, 1⟩
    (by
      iterate 3 (try simp [runSimulation, simLoop, runRound, processFailed,
        processLink, findState, updateFirst, initState, jsOr]; try norm_num))
    "B" (by decide) (by decide)

/-! ## Centrality counting lemmas -/

theorem mem_connKeys {network : List ExposureNetwork} {d : String} {x : String} :
    x ∈ connKeys network d ↔
      ∃ e ∈ refEdges network d, x = e.debtor_id ∨ x = e.creditor_id := by
  unfold connKeys
  simp only [List.mem_toFinset, List.mem_flatMap, List.mem_cons,
    List.mem_singleton, List.not_mem_nil, or_false]

theorem sum_indicator_eq_length (i : String) :
    ∀ (l : List ExposureNetwork),
      (∀ e ∈ l, e.creditor_id ≠ e.debtor_id) →
      (l.map (fun e =>
        (if e.debtor_id = i then 1 else 0) +
          (if e.creditor_id = i then 1 else 0))).sum =
      (l.filter (fun e => e.debtor_id = i ∨ e.creditor_id = i)).length := by
  intro l
  induction l with
  | nil => intro _; simp
  | cons a t ih =>
    intro hs
    have ha : a.creditor_id ≠ a.debtor_id := hs a (List.mem_cons_self _ _)
    have ht := ih (fun e he => hs e (List.mem_cons_of_mem a he))
    simp only [List.map_cons, List.sum_cons, List.filter_cons]
    by_cases hd : a.debtor_id = i
    · have hc : ¬ a.creditor_id = i := fun hc => ha (hc.trans hd.symm)
      simp [hd, hc, ht]
      try omega
    · by_cases hc : a.creditor_id = i
      · simp [hd, hc, ht]
        try omega
      · simp [hd, hc, ht]
        try omega

/-- `connCount` counts the incident reference-date edges once each, provided
no edge is a self-loop. -/
theorem connCount_eq_length_filter (network : List ExposureNetwork)
    (d : String) (i : String)
    (hs : ∀ e ∈ refEdges network d, e.creditor_id ≠ e.debtor_id) :
    connCount network d i =
      ((refEdges network d).filter
        (fun e => e.debtor_id = i ∨ e.creditor_id = i)).length := by
  unfold connCount
  rw [conn_foldl_eq, sum_indicator_eq_length i (refEdges network d) hs]
  simp

/-- In a self-loop-free edge list with pairwise distinct unordered endpoint
pairs, two distinct edges incident to `i` have distinct other endpoints. -/
theorem other_endpoint_ne (i : String) (e f : ExposureNetwork)
    (hpe : e.debtor_id = i ∨ e.creditor_id = i)
    (hpf : f.debtor_id = i ∨ f.creditor_id = i)
    (hnsp : ¬ ((e.creditor_id = f.creditor_id ∧ e.debtor_id = f.debtor_id) ∨
      (e.creditor_id = f.debtor_id ∧ e.debtor_id = f.creditor_id))) :
    (if e.debtor_id = i then e.creditor_id else e.debtor_id) ≠
      (if f.debtor_id = i then f.creditor_id else f.debtor_id) := by
  by_cases hde : e.debtor_id = i
  · by_cases hdf : f.debtor_id = i
    · rw [if_pos hde, if_pos hdf]
      intro hEq
      exact hnsp (Or.inl ⟨hEq, hde.trans hdf.symm⟩)
    · have hcf : f.creditor_id = i := hpf.resolve_left hdf
      rw [if_pos hde, if_neg hdf]
      intro hEq
      exact hnsp (Or.inr ⟨hEq, hde.trans hcf.symm⟩)
  · have hce : e.creditor_id = i := hpe.resolve_left hde
    by_cases hdf : f.debtor_id = i
    · rw [if_neg hde, if_pos hdf]
      intro hEq
      exact hnsp (Or.inr ⟨hce.trans hdf.symm, hEq⟩)
    · have hcf : f.creditor_id = i := hpf.resolve_left hdf
      rw [if_neg hde, if_neg hdf]
      intro hEq
      exact hnsp (Or.inl ⟨hce.trans hcf.symm, hEq⟩)

/-- The other endpoint of a non-self-loop edge incident to `i` is a key of
the connection-count record distinct from `i`. -/
theorem other_endpoint_mem_erase (network : List ExposureNetwork) (d i : String)
    (e : ExposureNetwork) (he : e ∈ refEdges network d)
    (hse : e.creditor_id ≠ e.debtor_id) :
    (if e.debtor_id = i then e.creditor_id else e.debtor_id) ∈
      (connKeys network d).erase i := by
  rw [Finset.mem_erase]
  by_cases hde : e.debtor_id = i
  · rw [if_pos hde]
    exact ⟨fun h => hse (h.trans hde.symm), mem_connKeys.mpr ⟨e, he, Or.inr rfl⟩⟩
  · rw [if_neg hde]
    exact ⟨hde, mem_connKeys.mpr ⟨e, he, Or.inl rfl⟩⟩

/-- On a reference-date edge list that is a simple graph (no self-loops, at
most one edge between each unordered pair of institutions), an institution
with at least one connection has strictly fewer connections than there are
connected institutions. -/
theorem connCount_lt_card (network : List ExposureNetwork) (d i : String)
    (hs : ∀ e ∈ refEdges network d, e.creditor_id ≠ e.debtor_id)
    (hp : (refEdges network d).Pairwise (fun e f =>
      ¬ ((e.creditor_id = f.creditor_id ∧ e.debtor_id = f.debtor_id) ∨
        (e.creditor_id = f.debtor_id ∧ e.debtor_id = f.creditor_id))))
    (hpos : 1 ≤ connCount network d i) :
    connCount network d i < (connKeys network d).card := by
  rw [connCount_eq_length_filter network d i hs] at hpos ⊢
  have hLmem : ∀ e ∈ (refEdges network d).filter
      (fun e => e.debtor_id = i ∨ e.creditor_id = i),
      e ∈ refEdges network d ∧ (e.debtor_id = i ∨ e.creditor_id = i) := by
    intro e he
    have := List.mem_filter.mp he
    exact ⟨this.1, by simpa using this.2⟩
  have hpairL : ((refEdges network d).filter
      (fun e => e.debtor_id = i ∨ e.creditor_id = i)).Pairwise
      (fun e f => (if e.debtor_id = i then e.creditor_id else e.debtor_id) ≠
        (if f.debtor_id = i then f.creditor_id else f.debtor_id)) := by
    refine List.Pairwise.imp_of_mem ?_ (hp.sublist (List.filter_sublist _))
    intro e f he hf hnsp
    exact other_endpoint_ne i e f (hLmem e he).2 (hLmem f hf).2 hnsp
  have hnodup : (((refEdges network d).filter
      (fun e => e.debtor_id = i ∨ e.creditor_id = i)).map
      (fun e => if e.debtor_id = i then e.creditor_id else e.debtor_id)).Nodup :=
    List.pairwise_map.mpr hpairL
  have hsub : (((refEdges network d).filter
      (fun e => e.debtor_id = i ∨ e.creditor_id = i)).map
      (fun e => if e.debtor_id = i then e.creditor_id else e.debtor_id)).toFinset ⊆
      (connKeys network d).erase i := by
    intro x hx
    rw [List.mem_toFinset] at hx
    obtain ⟨e, he, rfl⟩ := List.mem_map.mp hx
    exact other_endpoint_mem_erase network d i e (hLmem e he).1
      (hs e (hLmem e he).1)
  have himem : i ∈ connKeys network d := by
    have hne : (refEdges network d).filter
        (fun e => e.debtor_id = i ∨ e.creditor_id = i) ≠ [] := by
      intro hnil
      rw [hnil] at hpos
      simp at hpos
    obtain ⟨e, he⟩ := List.exists_mem_of_ne_nil _ hne
    rcases (hLmem e he).2 with hd | hc
    · exact mem_connKeys.mpr ⟨e, (hLmem e he).1, Or.inl hd.symm⟩
    · exact mem_connKeys.mpr ⟨e, (hLmem e he).1, Or.inr hc.symm⟩
  have hlen : ((refEdges network d).filter
      (fun e => e.debtor_id = i ∨ e.creditor_id = i)).length ≤
      ((connKeys network d).erase i).card := by
    calc ((refEdges network d).filter
          (fun e => e.debtor_id = i ∨ e.creditor_id = i)).length
        = (((refEdges network d).filter
            (fun e => e.debtor_id = i ∨ e.creditor_id = i)).map
            (fun e => if e.debtor_id = i then e.creditor_id else e.debtor_id)).length := by
          rw [List.length_map]
      _ = (((refEdges network d).filter
            (fun e => e.debtor_id = i ∨ e.creditor_id = i)).map
            (fun e => if e.debtor_id = i then e.creditor_id else e.debtor_id)).toFinset.card :=
          (List.toFinset_card_of_nodup hnodup).symm
      _ ≤ ((connKeys network d).erase i).card := Finset.card_le_card hsub
  have hcard : 0 < (connKeys network d).card := Finset.card_pos.mpr ⟨i, himem⟩
  rw [Finset.card_erase_of_mem himem] at hlen
  omega

/-- C7 (counterexample).  The claim that centrality lies in `[0, 1]` for an
institution with at least one connection fails on the code: a single
self-loop row increments `"A"`'s connection counter twice while making `"A"`
the only key, giving centrality `2 / max(1, 1) = 2 > 1`.  (Parallel edges
between the same pair overshoot similarly.) -/
theorem centrality_gt_one_cex :
    1 ≤ connCount [⟨"2024-01-01", "A", "A", some 5, none⟩] "2024-01-01" "A" ∧
      1 < centrality [⟨"2024-01-01", "A", "A", some 5, none⟩] "2024-01-01" "A" := by
  constructor
  · decide
  · norm_num [centrality, connCount, connKeys, refEdges]

/-- C7 (amended).  On reference-date exposure rows forming a simple graph —
no self-loops and at most one edge (in either direction) between each pair
of institutions — the centrality of an institution with at least one
connection lies in `[0, 1]` (indeed strictly below 1), and an institution
with zero connections has centrality `0`.  Without the simple-graph proviso
the bound fails (see the counterexample). -/
theorem centrality_bounds (network : List ExposureNetwork) (d i : String)
    (hs : ∀ e ∈ refEdges network d, e.creditor_id ≠ e.debtor_id)
    (hp : (refEdges network d).Pairwise (fun e f =>
      ¬ ((e.creditor_id = f.creditor_id ∧ e.debtor_id = f.debtor_id) ∨
        (e.creditor_id = f.debtor_id ∧ e.debtor_id = f.creditor_id)))) :
    (connCount network d i = 0 → centrality network d i = 0) ∧
      (1 ≤ connCount network d i →
        0 ≤ centrality network d i ∧ centrality network d i ≤ 1) := by
  constructor
  · intro h0
    unfold centrality
    rw [h0]
    simp
  · intro hpos
    have hlt := connCount_lt_card network d i hs hp hpos
    have hcard : 1 ≤ (connKeys network d).card := by omega
    unfold centrality
    have hmax : max 1 ((connKeys network d).card : ℚ) =
        ((connKeys network d).card : ℚ) :=
      max_eq_right (by exact_mod_cast hcard)
    rw [hmax]
    constructor
    · exact div_nonneg (by positivity) (by positivity)
    · rw [div_le_one (by exact_mod_cast hcard)]
      exact_mod_cast Nat.le_of_lt hlt

/-- C7 (witness).  Id `"A"` has one connection, exercising the bounds
conjunct; id `"C"` has none, exercising the zero-connection conjunct. -/
theorem centrality_bounds_witness :
    (0 ≤ centrality [⟨"2024-03-03", "A", "B", some 5, none⟩] "2024-03-03" "A" ∧
      centrality [⟨"2024-03-03", "A", "B", some 5, none⟩] "2024-03-03" "A" ≤ 1) ∧
      centrality [⟨"2024-03-03", "A", "B", some 5, none⟩] "2024-03-03" "C" = 0 :=
  ⟨(centrality_bounds [⟨"2024-03-03", "A", "B", some 5, none⟩] "2024-03-03" "A"
      (by decide) (by decide)).2 (by decide),
    (centrality_bounds [⟨"2024-03-03", "A", "B", some 5, none⟩] "2024-03-03" "C"
      (by decide) (by decide)).1 (by decide)⟩

end AegisNet
